import Mathlib

/-
Verification development for smartcam/security_cam.py.

The file embeds, as executable Lean definitions, the event-confirmation and
notification-dispatch pipeline of the script:
  * the debounce window (a `collections.deque` with a bounded length, line 215,
    appended to and tested at lines 271-272, cleared at line 293),
  * the cooldown gate (lines 216-217 and 274-275),
  * the frame-rate limiter (lines 219-220 and 229-233),
  * the three notification senders (`send_webhook`, `send_telegram`,
    `send_discord`, lines 148-192) and the alert block of `main`
    (lines 277-293).
Time instants and durations are modelled as rationals; the Python machine
floats of the script are only ever subtracted and compared here, which the
rational model reflects exactly on the inputs considered.
-/

/-- Encoding of the Python expression `1 if motion_detected else 0`
(line 271). -/
def bit (b : Bool) : Nat := if b then 1 else 0

/-- Append on a bounded deque.  A `collections.deque` constructed with a
maximum length `N` keeps only the last `N` appended elements, silently
dropping the oldest.  `motion_window.append x` (line 271) is modelled as
appending and then keeping the last `N` entries. -/
def dequeAppend (N : Nat) (w : List Nat) (x : Nat) : List Nat :=
  let w' := w ++ [x]
  w'.drop (w'.length - N)

/-- One offer of a motion sample to the debounce window: lines 271-272 of the
source.  Returns the window after the append together with the
`strong_motion` flag, which is `sum(motion_window) >= motion_window.maxlen`. -/
def offer (N : Nat) (w : List Nat) (b : Bool) : List Nat × Bool :=
  let w' := dequeAppend N w (bit b)
  (w', decide (N ≤ w'.sum))

/-- State of the debouncer-plus-cooldown pipeline: the deque `motion_window`
and the float `last_alert_time` (lines 215-217). -/
structure PipeState where
  window : List Nat
  lastAlert : ℚ
deriving DecidableEq, Repr

/-- One frame of the confirmation pipeline, rate limiting excluded:
lines 271-275 and 293 of the source.  Appends the sample, computes
`strong_motion`, and when `strong_motion and (now - last_alert_time) >=
cooldown_s` holds it records the alert time and clears the window.
Returns the new state, the `strong_motion` flag, and whether an alert was
raised. -/
def pipeStep (N : Nat) (cool : ℚ) (s : PipeState) (now : ℚ) (m : Bool) :
    PipeState × Bool × Bool :=
  let w := dequeAppend N s.window (bit m)
  let strong := decide (N ≤ w.sum)
  if strong && decide (cool ≤ now - s.lastAlert) then
    (⟨[], now⟩, strong, true)
  else
    (⟨w, s.lastAlert⟩, strong, false)

/-- Iterated `pipeStep` over a list of (time, motion) samples, collecting the
per-frame (strong, alerted) flags. -/
def pipeRun (N : Nat) (cool : ℚ) (s : PipeState) :
    List (ℚ × Bool) → PipeState × List (Bool × Bool)
  | [] => (s, [])
  | (t, m) :: rest =>
    let r := pipeStep N cool s t m
    let r2 := pipeRun N cool r.1 rest
    (r2.1, (r.2.1, r.2.2) :: r2.2)

/-- The cooldown test of line 274: `(now - last_alert_time) >= cooldown_s`,
with `last_alert_time` a plain float initialised to `0.0` (line 217). -/
def allowGate (cool last now : ℚ) : Bool := decide (cool ≤ now - last)

/-- Modelled from the spec words of claim C3, for comparison with
`allowGate`: "allow returns true iff no prior acceptance exists, or
now - lastAcceptedAt >= cooldownDuration", with the absence of a prior
acceptance represented as `Option.none`. -/
def allowClaim (cool : ℚ) (last : Option ℚ) (now : ℚ) : Bool :=
  match last with
  | none => true
  | some t => decide (cool ≤ now - t)

/-- The minimum inter-frame interval of line 219:
`min_dt = 1.0 / max(0.1, args.max_fps)`. -/
def min_dt (maxFps : ℚ) : ℚ := 1 / max (1/10) maxFps

/-- Static configuration of the main loop: `args.min_motion_frames`,
`cooldown_s` and `min_dt` (lines 215-219). -/
structure Config where
  maxlen : Nat
  cooldown_s : ℚ
  minDt : ℚ
deriving DecidableEq, Repr

/-- Mutable state of the main loop: `motion_window`, `last_alert_time`
(line 217) and `last_time` (line 220). -/
structure CamState where
  motion_window : List Nat
  last_alert_time : ℚ
  last_time : ℚ
deriving DecidableEq, Repr

/-- Observable result of a single pass through the `while True` body for one
frame instant. -/
structure StepResult where
  state : CamState
  admitted : Bool
  strong : Bool
  alerted : Bool
deriving DecidableEq, Repr

/-- One iteration of the main loop (lines 229-293) for a frame arriving at
`now` carrying motion flag `motion`.  The FPS cap of lines 230-233 first
skips the frame wholesale when `now - last_time < min_dt` (the `continue`
leaves every piece of state untouched); otherwise `last_time` is set to `now`
and the confirmation pipeline of lines 271-293 runs. -/
def step (cfg : Config) (s : CamState) (now : ℚ) (motion : Bool) : StepResult :=
  if now - s.last_time < cfg.minDt then
    ⟨s, false, false, false⟩
  else
    let p := pipeStep cfg.maxlen cfg.cooldown_s ⟨s.motion_window, s.last_alert_time⟩ now motion
    ⟨⟨p.1.window, p.1.lastAlert, now⟩, true, p.2.1, p.2.2⟩

/-- Times of the frames the rate limiter admits when the loop starts in state
`s` and the frames arrive at the given (time, motion) inputs. -/
def admittedTimes (cfg : Config) (s : CamState) : List (ℚ × Bool) → List ℚ
  | [] => []
  | (t, m) :: rest =>
    let r := step cfg s t m
    if r.admitted then t :: admittedTimes cfg r.state rest
    else admittedTimes cfg r.state rest

example : offer 3 [1, 1] true = ([1, 1, 1], true) := by decide
example : offer 3 [1, 1] false = ([1, 1, 0], false) := by decide
example : dequeAppend 3 [1, 1, 1] 0 = [1, 1, 0] := by decide
example : allowGate 20 0 5 = false := by norm_num [allowGate]

/-- Entries appended to the window are zero or one. -/
lemma bit_le_one (b : Bool) : bit b ≤ 1 := by cases b <;> simp [bit]

/-- Sum of a list of zero-or-one entries is at most its length. -/
lemma sum_le_length {l : List Nat} (h : ∀ x ∈ l, x ≤ 1) : l.sum ≤ l.length := by
  induction l with
  | nil => simp
  | cons a t ih =>
    have ha := h a (by simp)
    have ht := ih (fun x hx => h x (by simp [hx]))
    simp only [List.sum_cons, List.length_cons]
    omega

/-- A list of zero-or-one entries whose sum reaches its length is all ones. -/
lemma all_one_of_sum_eq_length {l : List Nat} (h : ∀ x ∈ l, x ≤ 1)
    (hs : l.sum = l.length) : ∀ x ∈ l, x = 1 := by
  induction l with
  | nil => simp
  | cons a t ih =>
    have ha := h a (by simp)
    have ht : ∀ x ∈ t, x ≤ 1 := fun x hx => h x (by simp [hx])
    have hle := sum_le_length ht
    simp only [List.sum_cons, List.length_cons] at hs
    intro x hx
    rcases List.mem_cons.mp hx with h1 | h2
    · omega
    · exact ih ht (by omega) x h2

/-- An all-ones list sums to its length. -/
lemma sum_eq_length_of_all_one {l : List Nat} (h : ∀ x ∈ l, x = 1) :
    l.sum = l.length := by
  induction l with
  | nil => simp
  | cons a t ih =>
    have ha := h a (by simp)
    have ht := ih (fun x hx => h x (by simp [hx]))
    simp only [List.sum_cons, List.length_cons]
    omega

/-- Length of the bounded-deque append. -/
lemma dequeAppend_length (N : Nat) (w : List Nat) (x : Nat) :
    (dequeAppend N w x).length = min (w.length + 1) N := by
  simp only [dequeAppend, List.length_drop, List.length_append, List.length_singleton]
  omega

/-- Every element of the bounded-deque append comes from the old window or is
the new sample. -/
lemma mem_dequeAppend {N : Nat} {w : List Nat} {x y : Nat}
    (h : y ∈ dequeAppend N w x) : y ∈ w ∨ y = x := by
  simp only [dequeAppend] at h
  have h2 := List.mem_of_mem_drop h
  simpa using h2

/-- Claim C1: `Debouncer.offer(isMotion)` returns confirmed = true iff the
debounce window is at full capacity `N` and every entry in it is positive;
while the window holds fewer than `N` samples the result is false.  The
hypothesis records the invariant that window entries are the appended zeros
and ones of line 271. -/
theorem offer_confirmed_iff (N : Nat) (w : List Nat) (b : Bool)
    (h : ∀ x ∈ w, x ≤ 1) :
    ((offer N w b).2 = true ↔
      ((offer N w b).1.length = N ∧ ∀ x ∈ (offer N w b).1, x = 1))
    ∧ ((offer N w b).1.length < N → (offer N w b).2 = false) := by
  have hmem : ∀ x ∈ dequeAppend N w (bit b), x ≤ 1 := by
    intro x hx
    rcases mem_dequeAppend hx with h1 | h2
    · exact h x h1
    · exact h2 ▸ bit_le_one b
  have hlen : (dequeAppend N w (bit b)).length ≤ N := by
    rw [dequeAppend_length]; omega
  have hsl := sum_le_length hmem
  constructor
  · simp only [offer, decide_eq_true_eq]
    constructor
    · intro hN
      have hl : (dequeAppend N w (bit b)).length = N := by omega
      exact ⟨hl, all_one_of_sum_eq_length hmem (by omega)⟩
    · rintro ⟨hl, hall⟩
      have := sum_eq_length_of_all_one hall
      omega
  · intro hlt
    simp only [offer] at hlt ⊢
    simp only [decide_eq_false_iff_not]
    omega

/-- Witness for `offer_confirmed_iff` at a concrete window. -/
theorem offer_confirmed_iff_witness :
    (∀ x ∈ [1], x ≤ 1)
    ∧ (((offer 2 [1] true).2 = true ↔
        ((offer 2 [1] true).1.length = 2 ∧ ∀ x ∈ (offer 2 [1] true).1, x = 1))
      ∧ ((offer 2 [1] true).1.length < 2 → (offer 2 [1] true).2 = false)) :=
  ⟨by decide, offer_confirmed_iff 2 [1] true (by decide)⟩

/-- Claim C2 counterexample: with window capacity 1 and cooldown 20, a single
positive sample at instant 5 from the initial state makes `strong_motion`
true, yet the window is not cleared — it still holds the sample — because the
clearing at line 293 sits inside the cooldown-guarded branch of line 274 and
`5 - 0.0 < 20`.  So a confirmed result does not always clear the window. -/
theorem confirmed_without_clear_cex :
    (pipeStep 1 20 ⟨[], 0⟩ 5 true).2.1 = true
    ∧ (pipeStep 1 20 ⟨[], 0⟩ 5 true).1.window = [1]
    ∧ (pipeStep 1 20 ⟨[], 0⟩ 5 true).1.window ≠ [] := by
  refine ⟨?_, ?_, ?_⟩ <;> norm_num [pipeStep, dequeAppend, bit]

/-- Appending a one to an all-ones window keeps it all ones, truncated to the
capacity. -/
lemma dequeAppend_replicate (N j : Nat) :
    dequeAppend N (List.replicate j 1) 1 = List.replicate (min (j + 1) N) 1 := by
  simp only [dequeAppend, ← List.replicate_succ', List.length_replicate,
    List.drop_replicate]
  congr 1
  omega

/-- Sum of an all-ones window. -/
lemma sum_replicate_one (k : Nat) : (List.replicate k 1).sum = k := by
  simp [List.sum_replicate]

/-- Feeding fewer than `N` positive samples to an all-ones window that stays
below capacity never confirms, never alerts, and leaves an all-ones window. -/
lemma pipeRun_trues (N : Nat) (cool : ℚ) (l0 : ℚ) :
    ∀ (ts : List ℚ) (j : Nat), j + ts.length < N →
    pipeRun N cool ⟨List.replicate j 1, l0⟩ (ts.map (fun u => (u, true))) =
      (⟨List.replicate (j + ts.length) 1, l0⟩,
        List.replicate ts.length (false, false)) := by
  intro ts
  induction ts with
  | nil => intro j hj; simp [pipeRun]
  | cons t rest ih =>
    intro j hj
    simp only [List.length_cons] at hj
    have hps : pipeStep N cool ⟨List.replicate j 1, l0⟩ t true =
        (⟨List.replicate (j + 1) 1, l0⟩, false, false) := by
      have hmin : min (j + 1) N = j + 1 := by omega
      have hsum : ¬ (N ≤ (List.replicate (j + 1) 1).sum) := by
        rw [sum_replicate_one]; omega
      simp only [pipeStep, bit, if_true, dequeAppend_replicate, hmin,
        decide_eq_false hsum, Bool.false_and, Bool.false_eq_true, if_false]
    simp only [List.map_cons, pipeRun, hps]
    rw [ih (j + 1) (by omega)]
    have h1 : j + 1 + rest.length = j + (rest.length + 1) := by omega
    rw [h1, ← List.replicate_succ]
    simp [List.length_cons]

/-- Running the pipeline over an appended input list splits into two runs. -/
lemma pipeRun_append (N : Nat) (cool : ℚ) :
    ∀ (l1 l2 : List (ℚ × Bool)) (s : PipeState),
    pipeRun N cool s (l1 ++ l2) =
      ((pipeRun N cool (pipeRun N cool s l1).1 l2).1,
        (pipeRun N cool s l1).2 ++ (pipeRun N cool (pipeRun N cool s l1).1 l2).2) := by
  intro l1
  induction l1 with
  | nil => intro l2 s; simp [pipeRun]
  | cons a rest ih =>
    intro l2 s
    obtain ⟨t, m⟩ := a
    simp only [List.cons_append, pipeRun, List.append_eq]
    rw [ih]

/-- Claim C2, amended: the window is cleared to empty immediately after a
confirmed result exactly when the cooldown gate also accepts it (the clearing
at line 293 is inside the branch guarded by line 274); and for exactly `N`
consecutive positive samples starting from an empty window, the pipeline
confirms exactly once, on the `N`-th call, and when the gate accepts that
call the window is empty immediately after it. -/
theorem clear_on_accept_and_nth_confirm (N : Nat) (cool : ℚ) (ts : List ℚ)
    (t l0 : ℚ) (hN : 1 ≤ N) (hts : ts.length + 1 = N) (hg : cool ≤ t - l0) :
    (∀ (s : PipeState) (now : ℚ) (m : Bool),
      ((pipeStep N cool s now m).2.2 = true →
        (pipeStep N cool s now m).1.window = [])
      ∧ ((pipeStep N cool s now m).2.2 = false →
        (pipeStep N cool s now m).1.window = dequeAppend N s.window (bit m)))
    ∧ pipeRun N cool ⟨[], l0⟩ ((ts ++ [t]).map (fun u => (u, true))) =
        (⟨[], t⟩, List.replicate (N - 1) (false, false) ++ [(true, true)]) := by
  constructor
  · intro s now m
    simp only [pipeStep]
    split
    · exact ⟨fun _ => rfl, fun hc => by simp at hc⟩
    · exact ⟨fun hc => by simp at hc, fun _ => rfl⟩
  · have hlast : pipeStep N cool ⟨List.replicate (N - 1) 1, l0⟩ t true =
        (⟨[], t⟩, true, true) := by
      have hdq : dequeAppend N (List.replicate (N - 1) 1) 1 = List.replicate N 1 := by
        rw [dequeAppend_replicate]
        congr 1
        omega
      have hsum : N ≤ (List.replicate N 1).sum := by rw [sum_replicate_one]
      simp only [pipeStep, bit, if_true, hdq, decide_eq_true hsum,
        decide_eq_true hg, Bool.and_self, if_true]
    have hfirst := pipeRun_trues N cool l0 ts 0 (by omega)
    have hts' : (0 : Nat) + ts.length = N - 1 := by omega
    rw [hts'] at hfirst
    simp only [List.replicate_zero] at hfirst
    rw [List.map_append, pipeRun_append, hfirst]
    simp only [List.map_cons, List.map_nil, pipeRun, hlast]
    rw [show ts.length = N - 1 from by omega]

/-- Witness for `clear_on_accept_and_nth_confirm` with window capacity 2. -/
theorem clear_on_accept_witness :
    ((1 : Nat) ≤ 2 ∧ ([(0 : ℚ)].length + 1 = 2) ∧ (20 : ℚ) ≤ 1 - (-20))
    ∧ ((∀ (s : PipeState) (now : ℚ) (m : Bool),
        ((pipeStep 2 20 s now m).2.2 = true →
          (pipeStep 2 20 s now m).1.window = [])
        ∧ ((pipeStep 2 20 s now m).2.2 = false →
          (pipeStep 2 20 s now m).1.window = dequeAppend 2 s.window (bit m)))
      ∧ pipeRun 2 20 ⟨[], -20⟩ (([(0 : ℚ)] ++ [1]).map (fun u => (u, true))) =
          (⟨[], 1⟩, List.replicate (2 - 1) (false, false) ++ [(true, true)])) :=
  ⟨⟨by norm_num, by norm_num, by norm_num⟩,
    clear_on_accept_and_nth_confirm 2 20 [0] 1 (-20) (by norm_num) (by norm_num)
      (by norm_num)⟩

/-- Claim C3 counterexample: before any acceptance (`last_alert_time` still
holding its initial 0.0, line 217), the claim predicts allow is true, but the
code's test `(now - last_alert_time) >= cooldown_s` is false at `now = 5`
with a 20-second cooldown. -/
theorem allow_initial_cex :
    allowGate 20 0 5 = false ∧ allowClaim 20 none 5 = true := by
  constructor
  · norm_num [allowGate]
  · rfl

/-- Claim C3, amended: `allow` is exactly the test `cooldown <= now - last`,
with `last` the 0.0-initialised `last_alert_time` — so before any acceptance
the gate opens only once `now` itself reaches the cooldown; after an
acceptance at time `t` the gate is closed at every instant less than
`cooldown` past `t` (hence allow is true at most once within any interval
shorter than the cooldown), and an accepted `pipeStep` records its own
instant as the new `last_alert_time`. -/
theorem allow_gate_amended (cool last now t now2 : ℚ) (h : now2 - t < cool) :
    (allowGate cool last now = true ↔ cool ≤ now - last)
    ∧ allowGate cool t now2 = false
    ∧ (∀ (N : Nat) (s : PipeState) (m : Bool) (u : ℚ),
        (pipeStep N cool s u m).2.2 = true →
          (pipeStep N cool s u m).1.lastAlert = u) := by
  refine ⟨by simp [allowGate], ?_, ?_⟩
  · simp only [allowGate, decide_eq_false_iff_not]
    exact not_le.mpr h
  · intro N s m u
    simp only [pipeStep]
    split
    · intro _; rfl
    · intro hc; simp at hc

/-- Witness for `allow_gate_amended` at concrete instants. -/
theorem allow_gate_amended_witness :
    ((15 : ℚ) - 10 < 20)
    ∧ ((allowGate 20 0 25 = true ↔ (20 : ℚ) ≤ 25 - 0)
      ∧ allowGate 20 10 15 = false
      ∧ (∀ (N : Nat) (s : PipeState) (m : Bool) (u : ℚ),
          (pipeStep N 20 s u m).2.2 = true →
            (pipeStep N 20 s u m).1.lastAlert = u)) :=
  ⟨by norm_num, allow_gate_amended 20 0 25 10 15 (by norm_num)⟩

/-- Claim C4: with confirmation window 3 and cooldown 20 s, feeding motion
booleans 1,1,1 at instants 0,1,2 makes the debouncer confirm (`strong_motion`
true) at t = 2; then feeding 0,1,1,1 at instants 5,6,7,8 makes it confirm
again at t = 8, while the cooldown test is false at t = 8, and no second
alert is raised — the alert flags of the run are all false (with
`last_alert_time` at its initial 0.0 the cooldown test is false at t = 2 as
well, so the run raises no alert at all). -/
theorem scenario_window3_cooldown20 :
    pipeRun 3 20 ⟨[], 0⟩
        [(0, true), (1, true), (2, true), (5, false), (6, true), (7, true), (8, true)]
      = (⟨[1, 1, 1], 0⟩,
        [(false, false), (false, false), (true, false), (false, false),
          (false, false), (false, false), (true, false)])
    ∧ allowGate 20 0 8 = false := by
  constructor
  · norm_num [pipeRun, pipeStep, dequeAppend, bit]
  · norm_num [allowGate]

/-- Frames arriving before the minimum interval has elapsed are skipped
wholesale: the `continue` at line 232 leaves every piece of state untouched. -/
lemma step_skip (cfg : Config) (s : CamState) (now : ℚ) (m : Bool)
    (h : now - s.last_time < cfg.minDt) :
    step cfg s now m = ⟨s, false, false, false⟩ := by
  simp [step, h]

/-- On an admitted frame the loop records the frame instant in `last_time`
(line 233). -/
lemma step_admitted (cfg : Config) (s : CamState) (now : ℚ) (m : Bool)
    (h : ¬ now - s.last_time < cfg.minDt) :
    (step cfg s now m).admitted = true ∧ (step cfg s now m).state.last_time = now := by
  rw [step, if_neg h]
  exact ⟨rfl, rfl⟩

/-- Each admitted frame is at least `min_dt` after the previous one (or after
the initial `last_time`), along any run of the loop. -/
lemma admittedTimes_chain (cfg : Config) :
    ∀ (inputs : List (ℚ × Bool)) (s : CamState),
    List.Chain (fun a b => cfg.minDt ≤ b - a) s.last_time
      (admittedTimes cfg s inputs) := by
  intro inputs
  induction inputs with
  | nil => intro s; exact List.Chain.nil
  | cons a rest ih =>
    intro s
    obtain ⟨t, m⟩ := a
    by_cases h : t - s.last_time < cfg.minDt
    · rw [show admittedTimes cfg s ((t, m) :: rest) = admittedTimes cfg s rest from by
        simp [admittedTimes, step_skip cfg s t m h]]
      exact ih s
    · rw [show admittedTimes cfg s ((t, m) :: rest) =
          t :: admittedTimes cfg (step cfg s t m).state rest from by
        simp [admittedTimes, (step_admitted cfg s t m h).1]]
      refine List.Chain.cons (not_lt.mp h) ?_
      have htail := ih (step cfg s t m).state
      rwa [(step_admitted cfg s t m h).2] at htail

/-- Claim C5: with a configured rate of `f` frames per second (at least the
0.1 floor, so the interval of line 219 is exactly `1 / f`), a frame is
admitted iff `now - last_time >= 1 / f`; a skipped frame leaves the loop
state — in particular the debounce window — completely unchanged; and along
any run, consecutive admitted frames are never closer together than
`1 / f`. -/
theorem rate_limiter_admission (f : ℚ) (N : Nat) (cool : ℚ) (s : CamState)
    (now : ℚ) (m : Bool) (inputs : List (ℚ × Bool)) (hf : 1/10 ≤ f) :
    ((step ⟨N, cool, min_dt f⟩ s now m).admitted = true ↔ 1/f ≤ now - s.last_time)
    ∧ ((step ⟨N, cool, min_dt f⟩ s now m).admitted = false →
        (step ⟨N, cool, min_dt f⟩ s now m).state = s)
    ∧ List.Chain' (fun a b => 1/f ≤ b - a)
        (admittedTimes ⟨N, cool, min_dt f⟩ s inputs) := by
  have hmd : min_dt f = 1/f := by
    rw [min_dt, max_eq_right hf]
  refine ⟨?_, ?_, ?_⟩
  · by_cases h : now - s.last_time < min_dt f
    · rw [step_skip ⟨N, cool, min_dt f⟩ s now m h]
      simp only [Bool.false_eq_true, false_iff, not_le]
      exact hmd ▸ h
    · rw [(step_admitted ⟨N, cool, min_dt f⟩ s now m h).1]
      simp only [true_iff]
      exact hmd ▸ not_lt.mp h
  · intro hna
    by_cases h : now - s.last_time < min_dt f
    · rw [step_skip ⟨N, cool, min_dt f⟩ s now m h]
    · rw [(step_admitted ⟨N, cool, min_dt f⟩ s now m h).1] at hna
      simp at hna
  · have hchain := admittedTimes_chain ⟨N, cool, min_dt f⟩ inputs s
    have hcons : List.Chain' (fun a b => min_dt f ≤ b - a)
        (s.last_time :: admittedTimes ⟨N, cool, min_dt f⟩ s inputs) := hchain
    rw [← hmd]
    exact hcons.tail

/-- Witness for `rate_limiter_admission` at the default 8 fps. -/
theorem rate_limiter_admission_witness :
    ((1 : ℚ)/10 ≤ 8)
    ∧ (((step ⟨5, 20, min_dt 8⟩ ⟨[], 0, 0⟩ 1 true).admitted = true ↔
          (1 : ℚ)/8 ≤ 1 - (0 : ℚ))
      ∧ ((step ⟨5, 20, min_dt 8⟩ ⟨[], 0, 0⟩ 1 true).admitted = false →
          (step ⟨5, 20, min_dt 8⟩ ⟨[], 0, 0⟩ 1 true).state = ⟨[], 0, 0⟩)
      ∧ List.Chain' (fun a b => (1 : ℚ)/8 ≤ b - a)
          (admittedTimes ⟨5, 20, min_dt 8⟩ ⟨[], 0, 0⟩
            [(1, true), (9/8, true), (2, true)])) :=
  ⟨by norm_num, rate_limiter_admission 8 5 20 ⟨[], 0, 0⟩ 1 true
    [(1, true), (9/8, true), (2, true)] (by norm_num)⟩

/-- Claim C10: the minimum inter-frame interval of line 219 is
`1 / max(0.1, f)`: any configured rate at or below 0.1 (zero and negatives
included) is clamped to 0.1 frames per second, the divisor is always
positive, and the effective interval is itself positive and never exceeds
10 seconds. -/
theorem max_fps_clamp (f : ℚ) :
    (f ≤ 1/10 → min_dt f = 10)
    ∧ (1/10 ≤ f → min_dt f = 1/f)
    ∧ 0 < max (1/10 : ℚ) f
    ∧ 0 < min_dt f
    ∧ min_dt f ≤ 10 := by
  have hpos : 0 < max (1/10 : ℚ) f := lt_of_lt_of_le (by norm_num) (le_max_left _ _)
  refine ⟨?_, ?_, hpos, ?_, ?_⟩
  · intro h
    rw [min_dt, max_eq_left h]
    norm_num
  · intro h
    rw [min_dt, max_eq_right h]
  · exact div_pos one_pos hpos
  · rw [min_dt]
    rw [div_le_iff₀ hpos]
    calc (1 : ℚ) = 10 * (1/10) := by norm_num
    _ ≤ 10 * max (1/10) f := by
        exact mul_le_mul_of_nonneg_left (le_max_left _ _) (by norm_num)

/-- Witness for `max_fps_clamp` at a negative configured rate. -/
theorem max_fps_clamp_witness :
    ((-3 : ℚ) ≤ 1/10 ∧ min_dt (-3) = 10) ∧ (0 < min_dt (-3) ∧ min_dt (-3) ≤ 10) := by
  have h := max_fps_clamp (-3)
  exact ⟨⟨by norm_num, h.1 (by norm_num)⟩, ⟨h.2.2.2.1, h.2.2.2.2⟩⟩

/-- HTTP response as the senders observe it: a status code and a body text
(the body is used only in the warning printed at line 173). -/
structure HttpResp where
  status : Nat
  body : String
deriving DecidableEq, Repr

/-- Requests the three senders can issue, carrying the fields the source
passes to `requests.post` (lines 152, 163-171 and 182-190). -/
inductive Request where
  | webhookJson (url text : String)
  | discordMultipart (url content username filename : String)
  | discordJson (url content username : String)
  | telegramPhoto (url chatId caption : String)
  | telegramMsg (url chatId text : String)
deriving DecidableEq, Repr

/-- Timeout, in seconds, the source attaches to each request: 5 for plain
posts, 10 when a file is uploaded (lines 152, 165, 170, 186 and 190). -/
def requestTimeout : Request → ℚ
  | .webhookJson _ _ => 5
  | .discordMultipart _ _ _ _ => 10
  | .discordJson _ _ _ => 5
  | .telegramPhoto _ _ _ => 10
  | .telegramMsg _ _ _ => 5

/-- Outcome a sender reports for one call, through its log: silently
disabled, silently returned, HTTP-status warning (line 172-173), or
caught-exception warning. -/
inductive SendOutcome where
  | disabled
  | okSent
  | httpWarn (status : Nat)
  | exceptWarn
deriving DecidableEq, Repr

/-- `os.path.basename` for the slash-separated paths the script builds
(line 163). -/
def basename (p : String) : String := (p.splitOn "/").getLastD ""

/-- `send_webhook` (lines 148-154): a no-op on an empty URL; otherwise one
JSON post whose exception, if any, is swallowed by the catch-all handler of
line 153.  The result type is `Except` so that an exception escaping to the
caller would show as `Except.error`; the network oracle `net` decides
whether the post returns a response or raises.  The response status is never
inspected.  The request trace returned alongside the outcome lists the
network calls performed. -/
def send_webhook (net : Request → Except String HttpResp) (url text : String) :
    Except String (SendOutcome × List Request) :=
  if url = "" then .ok (.disabled, [])
  else
    match net (.webhookJson url text) with
    | .ok _ => .ok (.okSent, [.webhookJson url text])
    | .error _ => .ok (.exceptWarn, [.webhookJson url text])

/-- Request `send_discord` builds (lines 161-171): a multipart upload with
fields content, the fixed display name "SmartCam" and the image file part
when an image path is supplied, non-empty and present on disk; otherwise a
JSON post with content and the same fixed display name. -/
def discordRequest (fileExists : String → Bool) (url text : String) :
    Option String → Request
  | some p =>
    if p ≠ "" && fileExists p then
      .discordMultipart url text "SmartCam" (basename p)
    else .discordJson url text "SmartCam"
  | none => .discordJson url text "SmartCam"

/-- `send_discord` (lines 156-175): a no-op on an empty webhook URL;
otherwise posts `discordRequest` and logs a warning when the response status
is 300 or more (line 172) or when an exception is caught (line 174).  Every
branch returns normally. -/
def send_discord (net : Request → Except String HttpResp)
    (fileExists : String → Bool) (url text : String) (imagePath : Option String) :
    Except String (SendOutcome × List Request) :=
  if url = "" then .ok (.disabled, [])
  else
    match net (discordRequest fileExists url text imagePath) with
    | .ok resp =>
      if 300 ≤ resp.status then
        .ok (.httpWarn resp.status, [discordRequest fileExists url text imagePath])
      else .ok (.okSent, [discordRequest fileExists url text imagePath])
    | .error _ => .ok (.exceptWarn, [discordRequest fileExists url text imagePath])

/-- URL of the Telegram photo endpoint built at line 182. -/
def telegramPhotoUrl (token : String) : String :=
  "https://api.telegram.org/bot" ++ token ++ "/sendPhoto"

/-- URL of the Telegram message endpoint built at line 188. -/
def telegramMsgUrl (token : String) : String :=
  "https://api.telegram.org/bot" ++ token ++ "/sendMessage"

/-- Request `send_telegram` issues (lines 181-190): a photo upload with
caption when an image path is supplied, non-empty and present on disk,
otherwise a plain message. -/
def telegramRequest (fileExists : String → Bool) (token chatId text : String) :
    Option String → Request
  | some p =>
    if p ≠ "" && fileExists p then .telegramPhoto (telegramPhotoUrl token) chatId text
    else .telegramMsg (telegramMsgUrl token) chatId text
  | none => .telegramMsg (telegramMsgUrl token) chatId text

/-- `send_telegram` (lines 177-192): a no-op when the token or the chat id is
missing; otherwise one post whose exception, if any, is swallowed at
line 191.  The response status is never inspected. -/
def send_telegram (net : Request → Except String HttpResp)
    (fileExists : String → Bool) (token chatId text : String)
    (imagePath : Option String) :
    Except String (SendOutcome × List Request) :=
  if token = "" ∨ chatId = "" then .ok (.disabled, [])
  else
    match net (telegramRequest fileExists token chatId text imagePath) with
    | .ok _ => .ok (.okSent, [telegramRequest fileExists token chatId text imagePath])
    | .error _ =>
      .ok (.exceptWarn, [telegramRequest fileExists token chatId text imagePath])

/-- The alert block of `main` calls the three senders one after another
(lines 287-289: webhook, then Telegram, then Discord, the latter two with the
snapshot path).  The `Except` sequencing mirrors Python control flow: an
uncaught exception in one call would abort the rest of the block and the
loop iteration. -/
def alertSends (net : Request → Except String HttpResp)
    (fileExists : String → Bool)
    (webhookUrl token chatId discordUrl msg : String) (snapshot : Option String) :
    Except String ((SendOutcome × List Request) × (SendOutcome × List Request) ×
      (SendOutcome × List Request)) := do
  let r1 ← send_webhook net webhookUrl msg
  let r2 ← send_telegram net fileExists token chatId msg snapshot
  let r3 ← send_discord net fileExists discordUrl msg snapshot
  pure (r1, r2, r3)

/-- Claim C6: a channel whose required configuration is empty is disabled —
its send returns at once (lines 149-150, 158-159, 178-179), issues no
network call (empty request trace) and reports the distinguishable disabled
outcome, which is neither a delivery nor a failure. -/
theorem disabled_channels_no_op (net : Request → Except String HttpResp)
    (fe : String → Bool) (text tok chat : String) (img : Option String) :
    send_webhook net "" text = .ok (.disabled, [])
    ∧ send_discord net fe "" text img = .ok (.disabled, [])
    ∧ send_telegram net fe "" chat text img = .ok (.disabled, [])
    ∧ send_telegram net fe tok "" text img = .ok (.disabled, []) := by
  refine ⟨rfl, rfl, rfl, ?_⟩
  rw [send_telegram, if_pos (Or.inr rfl)]

/-- `send_webhook` returns normally on every input. -/
lemma send_webhook_ok (net : Request → Except String HttpResp) (url text : String) :
    ∃ r, send_webhook net url text = .ok r := by
  rw [send_webhook]
  by_cases h : url = ""
  · rw [if_pos h]; exact ⟨_, rfl⟩
  · rw [if_neg h]
    cases hnet : net (.webhookJson url text) with
    | ok resp => exact ⟨_, rfl⟩
    | error e => exact ⟨_, rfl⟩

/-- `send_telegram` returns normally on every input. -/
lemma send_telegram_ok (net : Request → Except String HttpResp)
    (fe : String → Bool) (tok chat text : String) (img : Option String) :
    ∃ r, send_telegram net fe tok chat text img = .ok r := by
  rw [send_telegram]
  by_cases h : tok = "" ∨ chat = ""
  · rw [if_pos h]; exact ⟨_, rfl⟩
  · rw [if_neg h]
    cases hnet : net (telegramRequest fe tok chat text img) with
    | ok resp => exact ⟨_, rfl⟩
    | error e => exact ⟨_, rfl⟩

/-- `send_discord` returns normally on every input. -/
lemma send_discord_ok (net : Request → Except String HttpResp)
    (fe : String → Bool) (url text : String) (img : Option String) :
    ∃ r, send_discord net fe url text img = .ok r := by
  rw [send_discord]
  by_cases h : url = ""
  · rw [if_pos h]; exact ⟨_, rfl⟩
  · rw [if_neg h]
    cases hnet : net (discordRequest fe url text img) with
    | ok resp =>
      by_cases hs : 300 ≤ resp.status
      · exact ⟨(.httpWarn resp.status, [discordRequest fe url text img]), by simp [hs]⟩
      · exact ⟨(.okSent, [discordRequest fe url text img]), by simp [hs]⟩
    | error e => exact ⟨_, rfl⟩

/-- Claim C7: every sender swallows its own failures — whatever the network
oracle does, each send returns normally (never an `Except.error` to its
caller), and the sequenced alert block therefore runs all three sends, each
producing exactly the outcome it would produce alone, and itself returns
normally to the loop. -/
theorem sends_never_raise (net : Request → Except String HttpResp)
    (fe : String → Bool) (uw tok chat ud msg : String) (img : Option String) :
    ∃ r1 r2 r3,
      send_webhook net uw msg = .ok r1
      ∧ send_telegram net fe tok chat msg img = .ok r2
      ∧ send_discord net fe ud msg img = .ok r3
      ∧ alertSends net fe uw tok chat ud msg img = .ok (r1, r2, r3) := by
  obtain ⟨r1, h1⟩ := send_webhook_ok net uw msg
  obtain ⟨r2, h2⟩ := send_telegram_ok net fe tok chat msg img
  obtain ⟨r3, h3⟩ := send_discord_ok net fe ud msg img
  exact ⟨r1, r2, r3, h1, h2, h3, by
    unfold alertSends
    rw [h1, h2, h3]
    rfl⟩

/-- Claim C8 counterexample: with a snapshot reference present but the
referenced file absent from disk, `send_discord` performs the JSON post, not
the multipart upload — the guard at line 161 also requires
`os.path.exists(image_path)`. -/
theorem discord_missing_file_cex :
    send_discord (fun _ => Except.ok ⟨200, ""⟩) (fun _ => false) "u" "m"
        (some "ghost.jpg")
      = .ok (.okSent, [Request.discordJson "u" "m" "SmartCam"])
    ∧ Request.discordJson "u" "m" "SmartCam"
      ≠ Request.discordMultipart "u" "m" "SmartCam" (basename "ghost.jpg") := by
  refine ⟨?_, by simp⟩
  simp [send_discord, discordRequest]

/-- Claim C8, amended: with a snapshot reference present, non-empty and whose
file exists on disk, `send_discord` performs the multipart form post with
content equal to the message, the fixed display name "SmartCam" and the image
file part; otherwise (no snapshot, or a missing file) it performs the JSON
post carrying content and the same fixed name; and an HTTP response status of
300 or more yields the logged warning outcome while the send still returns
normally. -/
theorem discord_send_characterization (url text p : String)
    (net : Request → Except String HttpResp) (fe : String → Bool)
    (resp : HttpResp) (hu : url ≠ "") (hp : p ≠ "") (hs : 300 ≤ resp.status) :
    (fe p = true → discordRequest fe url text (some p)
      = .discordMultipart url text "SmartCam" (basename p))
    ∧ (fe p = false → discordRequest fe url text (some p)
      = .discordJson url text "SmartCam")
    ∧ discordRequest fe url text none = .discordJson url text "SmartCam"
    ∧ (net (discordRequest fe url text (some p)) = .ok resp →
        send_discord net fe url text (some p)
          = .ok (.httpWarn resp.status, [discordRequest fe url text (some p)])) := by
  refine ⟨?_, ?_, rfl, ?_⟩
  · intro hfe
    simp [discordRequest, hp, hfe]
  · intro hfe
    simp [discordRequest, hfe]
  · intro hnet
    rw [send_discord, if_neg hu, hnet]
    simp [hs]

/-- Witness for `discord_send_characterization` on a 404 response. -/
theorem discord_send_characterization_witness :
    (("u" : String) ≠ "" ∧ ("s.jpg" : String) ≠ "" ∧ 300 ≤ (404 : Nat))
    ∧ ((true = true → discordRequest (fun _ => true) "u" "m" (some "s.jpg")
        = .discordMultipart "u" "m" "SmartCam" (basename "s.jpg"))
      ∧ (true = false → discordRequest (fun _ => true) "u" "m" (some "s.jpg")
        = .discordJson "u" "m" "SmartCam")
      ∧ discordRequest (fun _ => true) "u" "m" none = .discordJson "u" "m" "SmartCam"
      ∧ ((fun _ => (Except.ok ⟨404, "nf"⟩ : Except String HttpResp))
            (discordRequest (fun _ => true) "u" "m" (some "s.jpg"))
            = (Except.ok ⟨404, "nf"⟩ : Except String HttpResp) →
          send_discord (fun _ => (Except.ok ⟨404, "nf"⟩ : Except String HttpResp))
              (fun _ => true) "u" "m" (some "s.jpg")
            = .ok (.httpWarn 404,
                [discordRequest (fun _ => true) "u" "m" (some "s.jpg")]))) :=
  ⟨⟨by simp, by simp, by norm_num⟩,
    discord_send_characterization "u" "m" "s.jpg"
      (fun _ => (Except.ok ⟨404, "nf"⟩ : Except String HttpResp))
      (fun _ => true) ⟨404, "nf"⟩ (by simp) (by simp) (by norm_num)⟩

/-- Side effects the alert block of `main` performs on an accepted event, in
source order (lines 278-289): snapshot save, optional alarm, then the three
sends. -/
inductive AlertAction where
  | snapshot
  | alarm
  | webhook
  | telegram
  | discord
deriving DecidableEq, Repr

/-- Source order of the alert block's actions (lines 278-289). -/
def alertActions : List AlertAction :=
  [.snapshot, .alarm, .webhook, .telegram, .discord]

/-- Instant at which the loop proceeds past the alert block toward the next
frame, when the block is entered at `t0` and each synchronous call `a` takes
`dur a` seconds.  The calls of lines 278-289 are plain sequential function
calls on the single loop thread, so their durations accumulate before the
loop continues. -/
def loopResumeTime (dur : AlertAction → ℚ) (t0 : ℚ) : ℚ :=
  alertActions.foldl (fun t a => t + dur a) t0

/-- Claim C9 counterexample: the loop does not proceed to the next frame
independently of delivery time.  The sends are synchronous sequential calls,
so when each action of an accepted event takes 7 seconds the loop resumes
35 seconds later than it would with instantaneous sends — a slow or
unreachable service does delay frame processing and the later channels. -/
theorem dispatch_waits_cex :
    loopResumeTime (fun _ => 7) 0 ≠ loopResumeTime (fun _ => 0) 0
    ∧ loopResumeTime (fun _ => 7) 0 = 35 := by
  constructor <;> norm_num [loopResumeTime, alertActions]

/-- Claim C9, amended: on an accepted event the three channel sends are
invoked synchronously and sequentially, webhook before Telegram before
Discord, each HTTP request with its own bounded timeout (5 seconds for plain
posts, 10 seconds with an image), and the loop proceeds to the next frame
only after every call has returned — the resume instant is the entry instant
plus the total duration of all alert actions. -/
theorem dispatch_sequential_order (dur : AlertAction → ℚ) (t0 : ℚ)
    (u c fn m : String) :
    loopResumeTime dur t0 =
      t0 + dur .snapshot + dur .alarm + dur .webhook + dur .telegram + dur .discord
    ∧ alertActions.indexOf .webhook < alertActions.indexOf .telegram
    ∧ alertActions.indexOf .telegram < alertActions.indexOf .discord
    ∧ requestTimeout (.webhookJson u m) = 5
    ∧ requestTimeout (.telegramPhoto u c m) = 10
    ∧ requestTimeout (.telegramMsg u c m) = 5
    ∧ requestTimeout (.discordMultipart u m c fn) = 10
    ∧ requestTimeout (.discordJson u m c) = 5 := by
  refine ⟨?_, by decide, by decide, rfl, rfl, rfl, rfl, rfl⟩
  simp [loopResumeTime, alertActions]
